import Mathlib

/-!
Shallow embedding of the core virtual machine of this repository
(`src/vm/vm_core.rs`, `src/vm/runners/builtin_runner/bitwise.rs`), together
with theorems checking the natural-language specification against it.

Integer values (`BigInt` in the source) are canonical residues modulo the
VM prime (spec §3.1: `Int(n)` with `0 ≤ n < P`), so they are embedded as `ℕ`;
on such values Rust `BigInt` division and `mod_floor` agree with `Nat`
division and `%`.  Components of the repository that are not part of the
provided sources (`relocatable.rs`, `run_context.rs`, the memory container,
`bigint_to_usize`) are modelled from the spec; each such definition carries a
doc comment saying so.
-/

deriving instance DecidableEq for Except

namespace CairoVM

/-- A memory address: a `(segment_index, offset)` pair (spec §3.1). -/
structure Relocatable where
  segment_index : ℤ
  offset : ℕ
deriving DecidableEq, Repr

/-- A value is either a field integer (canonical residue) or an address
(spec §3.1, `MaybeRelocatable` in the source). -/
inductive MaybeRelocatable where
  | Int : ℕ → MaybeRelocatable
  | RelocatableValue : Relocatable → MaybeRelocatable
deriving DecidableEq, Repr

/-- Builtin-runner errors (`runner_errors.rs`); only the variant used by the
bitwise builtin is needed. -/
inductive RunnerError where
  | IntegerBiggerThanPowerOfTwo : MaybeRelocatable → ℕ → ℕ → RunnerError
deriving DecidableEq, Repr

/-- Memory errors (`memory_errors.rs`), restricted to the variants reachable
from the embedded operations. -/
inductive MemoryError where
  | InconsistentMemory : MaybeRelocatable → MaybeRelocatable → MaybeRelocatable → MemoryError
  | UnallocatedSegment : ℕ → ℕ → MemoryError
  | AddressInTemporarySegment : ℤ → MemoryError
deriving DecidableEq, Repr

/-- VM errors (`vm_errors.rs`).  `OffsetOutOfRange` and `ExpectedRelocatable`
stand for FAIL kinds the spec leaves unnamed (operand-address underflow in
§4.3, `Jump` on an integer result in §4.2.2). -/
inductive VirtualMachineError where
  | InvalidInstructionEncoding
  | PureValue
  | UnconstrainedResAdd
  | UnconstrainedResJump
  | UnconstrainedResJumpRel
  | UnconstrainedResAssertEq
  | DiffAssertValues : ℕ → ℕ → VirtualMachineError
  | CantWriteReturnPc : MaybeRelocatable → MaybeRelocatable → VirtualMachineError
  | CantWriteReturnFp : MaybeRelocatable → MaybeRelocatable → VirtualMachineError
  | FailedToComputeOperands
  | NoDst
  | MemoryError : MemoryError → VirtualMachineError
  | RunnerError : RunnerError → VirtualMachineError
  | InconsistentAutoDeduction :
      String → MaybeRelocatable → Option MaybeRelocatable → VirtualMachineError
  | ErrorMessageAttribute : String → VirtualMachineError → VirtualMachineError
  | NoScopeError
  | BigintToUsizeFail
  | OffsetOutOfRange
  | ExpectedRelocatable
deriving DecidableEq, Repr

/-- Modelled from the spec: §3.1 arithmetic on values (`relocatable.rs` is not
among the provided sources).  `Int − Int` is field subtraction mod P,
`Addr − Int` subtracts from the offset, `Addr − Addr` with equal segments
yields the offset difference as an integer and FAILS on unequal segments. -/
def MaybeRelocatable.sub (a b : MaybeRelocatable) (prime : ℕ) :
    Except VirtualMachineError MaybeRelocatable :=
  match a, b with
  | .Int x, .Int y => .ok (.Int ((((x : ℤ) - (y : ℤ)).emod (prime : ℤ)).toNat))
  | .RelocatableValue r, .Int y => .ok (.RelocatableValue ⟨r.segment_index, r.offset - y⟩)
  | .RelocatableValue r, .RelocatableValue s =>
      if r.segment_index = s.segment_index then .ok (.Int (r.offset - s.offset))
      else .error .PureValue
  | .Int _, .RelocatableValue _ => .error .PureValue

/-- Modelled from the spec: §3.1 addition on values.  `Int + Int` is field
addition mod P, `Addr + Int` adds to the offset ignoring the modulus,
`Addr + Addr` FAILS with `PureValue`. -/
def MaybeRelocatable.add_mod (a b : MaybeRelocatable) (prime : ℕ) :
    Except VirtualMachineError MaybeRelocatable :=
  match a, b with
  | .Int x, .Int y => .ok (.Int ((x + y) % prime))
  | .RelocatableValue r, .Int y => .ok (.RelocatableValue ⟨r.segment_index, r.offset + y⟩)
  | .Int x, .RelocatableValue r => .ok (.RelocatableValue ⟨r.segment_index, r.offset + x⟩)
  | .RelocatableValue _, .RelocatableValue _ => .error .PureValue

/-- Modelled from the spec: §3.1 — adding a plain unsigned integer to an
address (`&pc + n`, `add_usize_mod` with no modulus in the source). -/
def Relocatable.addNat (r : Relocatable) (n : ℕ) : Relocatable :=
  ⟨r.segment_index, r.offset + n⟩

/-- Modelled from the spec: §3.1 — `Addr + Int` adds to the offset,
`Addr + Addr` FAILS with `PureValue` (`Relocatable::add_maybe_mod` in the
missing `relocatable.rs`). -/
def Relocatable.add_maybe_mod (r : Relocatable) (v : MaybeRelocatable) (_prime : ℕ) :
    Except VirtualMachineError Relocatable :=
  match v with
  | .Int n => .ok ⟨r.segment_index, r.offset + n⟩
  | .RelocatableValue _ => .error .PureValue

/-- Modelled from the spec: §3.2/§4.1 — the write-once memory, organised as a
vector of segments, each a vector of optional cells (`memory.data` in the
source).  Temporary (negative-index) segments and relocation rules are out of
scope for the claims and are not represented. -/
structure Memory where
  data : List (List (Option MaybeRelocatable))
deriving DecidableEq, Repr

/-- Modelled from the spec: §4.1 `get` — returns the cell if present. -/
def Memory.get (m : Memory) (a : Relocatable) : Option MaybeRelocatable :=
  if 0 ≤ a.segment_index then
    (m.data.getD a.segment_index.toNat []).getD a.offset none
  else none

/-- Pads a segment with holes up to length `n`. -/
def padTo (l : List (Option MaybeRelocatable)) (n : ℕ) : List (Option MaybeRelocatable) :=
  l ++ List.replicate (n - l.length) none

/-- Modelled from the spec: §4.1 `insert` — write-once; writing a different
value to an assigned cell FAILS with `InconsistentMemory`, re-writing the same
value is a no-op, writing into an unallocated segment FAILS. -/
def Memory.insert (m : Memory) (a : Relocatable) (v : MaybeRelocatable) :
    Except MemoryError Memory :=
  if 0 ≤ a.segment_index then
    let s := a.segment_index.toNat
    if s < m.data.length then
      let seg := m.data.getD s []
      match seg.getD a.offset none with
      | some w =>
          if w = v then .ok m
          else .error (.InconsistentMemory (.RelocatableValue a) w v)
      | none => .ok ⟨m.data.set s ((padTo seg (a.offset + 1)).set a.offset (some v))⟩
    else .error (.UnallocatedSegment s m.data.length)
  else .error (.UnallocatedSegment 0 m.data.length)

/-- Destination / op0 base register selector (spec §3.4). -/
inductive Register where
  | AP
  | FP
deriving DecidableEq, Repr

/-- The op1 addressing mode (spec §3.4). -/
inductive Op1Addr where
  | Imm
  | AP
  | FP
  | Op0
deriving DecidableEq, Repr

/-- The result mode (spec §3.4). -/
inductive Res where
  | Op1
  | Add
  | Mul
  | Unconstrained
deriving DecidableEq, Repr

/-- The pc update mode (spec §3.4). -/
inductive PcUpdate where
  | Regular
  | Jump
  | JumpRel
  | Jnz
deriving DecidableEq, Repr

/-- The ap update mode (spec §3.4). -/
inductive ApUpdate where
  | Regular
  | Add
  | Add1
  | Add2
deriving DecidableEq, Repr

/-- The fp update mode (spec §3.4). -/
inductive FpUpdate where
  | Regular
  | APPlus2
  | Dst
deriving DecidableEq, Repr

/-- The opcode (spec §3.4). -/
inductive Opcode where
  | NOp
  | AssertEq
  | Call
  | Ret
deriving DecidableEq, Repr

/-- A decoded instruction (spec §3.4, `types/instruction.rs`). -/
structure Instruction where
  off0 : ℤ
  off1 : ℤ
  off2 : ℤ
  imm : Option ℕ
  dst_register : Register
  op0_register : Register
  op1_addr : Op1Addr
  res : Res
  pc_update : PcUpdate
  ap_update : ApUpdate
  fp_update : FpUpdate
  opcode : Opcode
deriving DecidableEq, Repr

/-- Modelled from the spec: §3.4 — `size()` is 2 with an immediate op1, else 1. -/
def Instruction.size (i : Instruction) : ℕ :=
  match i.op1_addr with
  | .Imm => 2
  | _ => 1

/-- The three registers (spec §3.3, `run_context.rs`). -/
structure RunContext where
  pc : Relocatable
  ap : ℕ
  fp : ℕ
deriving DecidableEq, Repr

/-- Modelled from the spec: §3.3 — `ap` viewed as an address in the execution
segment (segment 1 by convention). -/
def RunContext.get_ap (c : RunContext) : Relocatable := ⟨1, c.ap⟩

/-- Modelled from the spec: §3.3 — `fp` viewed as an address in the execution
segment. -/
def RunContext.get_fp (c : RunContext) : Relocatable := ⟨1, c.fp⟩

/-- Applies a signed instruction offset to an unsigned base offset; FAILS if
the result would be negative (the spec leaves the kind unnamed). -/
def applyOff (base : ℕ) (off : ℤ) : Except VirtualMachineError ℕ :=
  if 0 ≤ (base : ℤ) + off then .ok ((base : ℤ) + off).toNat
  else .error .OffsetOutOfRange

/-- Modelled from the spec: §4.3 — `dst_addr = (execution segment,
off0 + register value)`. -/
def RunContext.compute_dst_addr (c : RunContext) (i : Instruction) :
    Except VirtualMachineError Relocatable := do
  let base := match i.dst_register with
    | .AP => c.ap
    | .FP => c.fp
  let off ← applyOff base i.off0
  pure ⟨1, off⟩

/-- Modelled from the spec: §4.3 — `op0_addr` analogously with `off1`. -/
def RunContext.compute_op0_addr (c : RunContext) (i : Instruction) :
    Except VirtualMachineError Relocatable := do
  let base := match i.op0_register with
    | .AP => c.ap
    | .FP => c.fp
  let off ← applyOff base i.off1
  pure ⟨1, off⟩

/-- Modelled from the spec: §4.3 — `op1_addr` by addressing mode: `Imm → pc+1`,
`AP/FP → register + off2`, `Op0 → op0 value as address + off2` (FAIL if op0 is
an integer or absent). -/
def RunContext.compute_op1_addr (c : RunContext) (i : Instruction)
    (op0 : Option MaybeRelocatable) : Except VirtualMachineError Relocatable :=
  match i.op1_addr with
  | .Imm => .ok (Relocatable.addNat c.pc 1)
  | .AP => do
      let off ← applyOff c.ap i.off2
      pure ⟨1, off⟩
  | .FP => do
      let off ← applyOff c.fp i.off2
      pure ⟨1, off⟩
  | .Op0 =>
      match op0 with
      | some (.RelocatableValue r) => do
          let off ← applyOff r.offset i.off2
          pure ⟨r.segment_index, off⟩
      | _ => .error .PureValue

/-- Error-message attribute: a pc span with a message
(`serde/deserialize_program.rs` `Attribute`). -/
structure Attribute where
  name : String
  start_pc : ℕ
  end_pc : ℕ
  value : String
deriving DecidableEq, Repr

/-- A trace entry `{pc, ap, fp}` (`trace_entry.rs`). -/
structure TraceEntry where
  pc : Relocatable
  ap : Relocatable
  fp : Relocatable
deriving DecidableEq, Repr

/-- The builtin co-processor surface used by the VM core (spec §4.4): the base
segment index and the pure deduction function. -/
structure Builtin where
  base : ℤ
  deduce_memory_cell : Relocatable → Memory → Except RunnerError (Option MaybeRelocatable)

/-- Bitwise builtin static parameters (`bitwise_instance_def.rs`):
`ratio` and `total_n_bits`. -/
structure BitwiseInstanceDef where
  ratio_u32 : ℕ
  total_n_bits : ℕ
deriving DecidableEq, Repr

/-- Modelled from the spec: §4.6 — a fresh instance definition with the
typical `total_n_bits = 251`. -/
def BitwiseInstanceDef.new (r : ℕ) : BitwiseInstanceDef := ⟨r, 251⟩

/-- The bitwise builtin runner (`bitwise.rs`).  The source field `ratio` is
embedded as `ratio_u32`, `_included` as `included`. -/
structure BitwiseBuiltinRunner where
  ratio_u32 : ℕ
  base : ℤ
  cells_per_instance : ℕ
  n_input_cells : ℕ
  bitwise_builtin : BitwiseInstanceDef
  stop_ptr : Option ℕ
  included : Bool
  instances_per_component : ℕ
deriving DecidableEq, Repr

/-- `BitwiseBuiltinRunner::new`: base 0, 5 cells per instance, 2 input cells. -/
def BitwiseBuiltinRunner.new (instance_def : BitwiseInstanceDef) (incl : Bool) :
    BitwiseBuiltinRunner :=
  { ratio_u32 := instance_def.ratio_u32
    base := 0
    cells_per_instance := 5
    n_input_cells := 2
    bitwise_builtin := instance_def
    stop_ptr := none
    included := incl
    instances_per_component := 1 }

/-- `BitwiseBuiltinRunner::deduce_memory_cell` (`bitwise.rs` lines 70–114):
`index = offset mod cells_per_instance`; indices 0 and 1 are input cells; the
two inputs are read at `(segment, offset − index)` and its successor; inputs
`≥ 2^total_n_bits` FAIL; indices 2/3/4 yield AND/XOR/OR. -/
def BitwiseBuiltinRunner.deduce_memory_cell (b : BitwiseBuiltinRunner)
    (address : Relocatable) (memory : Memory) :
    Except RunnerError (Option MaybeRelocatable) :=
  let index := address.offset % b.cells_per_instance
  if index = 0 ∨ index = 1 then .ok none
  else
    let x_addr : Relocatable := ⟨address.segment_index, address.offset - index⟩
    let y_addr := Relocatable.addNat x_addr 1
    match Memory.get memory x_addr, Memory.get memory y_addr with
    | some (.Int num_x), some (.Int num_y) =>
        let pow_bits := 2 ^ b.bitwise_builtin.total_n_bits
        if num_x ≥ pow_bits then
          .error (.IntegerBiggerThanPowerOfTwo (.RelocatableValue x_addr)
            b.bitwise_builtin.total_n_bits num_x)
        else if num_y ≥ pow_bits then
          .error (.IntegerBiggerThanPowerOfTwo (.RelocatableValue y_addr)
            b.bitwise_builtin.total_n_bits num_y)
        else
          match index with
          | 2 => .ok (some (.Int (num_x &&& num_y)))
          | 3 => .ok (some (.Int (num_x ^^^ num_y)))
          | 4 => .ok (some (.Int (num_x ||| num_y)))
          | _ => .ok none
    | _, _ => .ok none

/-- View of the bitwise runner through the generic builtin surface. -/
def BitwiseBuiltinRunner.toBuiltin (b : BitwiseBuiltinRunner) : Builtin :=
  ⟨b.base, fun a m => BitwiseBuiltinRunner.deduce_memory_cell b a m⟩

/-- The resolved operands of one instruction (`Operands` in `vm_core.rs`). -/
structure Operands where
  dst : MaybeRelocatable
  res : Option MaybeRelocatable
  op0 : MaybeRelocatable
  op1 : MaybeRelocatable
deriving DecidableEq, Repr

/-- The three operand addresses (`OperandsAddresses` in `vm_core.rs`). -/
structure OperandsAddresses where
  dst_addr : Relocatable
  op0_addr : Relocatable
  op1_addr : Relocatable
deriving DecidableEq, Repr

/-- The virtual machine state (`VirtualMachine` in `vm_core.rs`).  Mutating
methods are embedded as functions returning an optional error together with
the post-call state, mirroring `&mut self` semantics: mutations made before a
failure persist. -/
structure VirtualMachine where
  run_context : RunContext
  prime : ℕ
  builtin_runners : List (String × Builtin)
  memory : Memory
  accessed_addresses : Option (List Relocatable)
  trace : Option (List TraceEntry)
  current_step : ℕ
  error_message_attributes : List Attribute
  skip_instruction_execution : Bool

/-- Modelled from the spec: §4.2.2 — conversion of a field integer to an
unsigned register value: `FAIL if n ≥ 2^63 or negative`
(`bigint_to_usize` in the missing `hint_processor_utils.rs`).  Canonical
residues (§3.1) are nonnegative, so only the upper bound can fire here. -/
def bigint_to_usize (n : ℕ) : Except VirtualMachineError ℕ :=
  if n < 2 ^ 63 then .ok n else .error .BigintToUsizeFail

/-- `is_zero` (`vm_core.rs` lines 218–223): integers test against zero,
addresses FAIL with `PureValue`. -/
def is_zero (addr : MaybeRelocatable) : Except VirtualMachineError Bool :=
  match addr with
  | .Int num => .ok (decide (num = 0))
  | .RelocatableValue _ => .error .PureValue

/-- `update_fp` (`vm_core.rs` lines 135–150). -/
def VirtualMachine.update_fp (vm : VirtualMachine) (instruction : Instruction)
    (operands : Operands) : Option VirtualMachineError × VirtualMachine :=
  match instruction.fp_update with
  | .APPlus2 =>
      (none, { vm with run_context := { vm.run_context with fp := vm.run_context.ap + 2 } })
  | .Dst =>
      match operands.dst with
      | .RelocatableValue rel =>
          (none, { vm with run_context := { vm.run_context with fp := rel.offset } })
      | .Int num =>
          match bigint_to_usize num with
          | .ok u => (none, { vm with run_context := { vm.run_context with fp := u } })
          | .error e => (some e, vm)
  | .Regular => (none, vm)

/-- `update_ap` (`vm_core.rs` lines 152–168). -/
def VirtualMachine.update_ap (vm : VirtualMachine) (instruction : Instruction)
    (operands : Operands) : Option VirtualMachineError × VirtualMachine :=
  match instruction.ap_update with
  | .Add =>
      match operands.res with
      | some res =>
          match Relocatable.add_maybe_mod (RunContext.get_ap vm.run_context) res vm.prime with
          | .ok new_ap =>
              (none, { vm with run_context := { vm.run_context with ap := new_ap.offset } })
          | .error e => (some e, vm)
      | none => (some .UnconstrainedResAdd, vm)
  | .Add1 =>
      (none, { vm with run_context := { vm.run_context with ap := vm.run_context.ap + 1 } })
  | .Add2 =>
      (none, { vm with run_context := { vm.run_context with ap := vm.run_context.ap + 2 } })
  | .Regular => (none, vm)

/-- `update_pc` (`vm_core.rs` lines 170–203). -/
def VirtualMachine.update_pc (vm : VirtualMachine) (instruction : Instruction)
    (operands : Operands) : Option VirtualMachineError × VirtualMachine :=
  match instruction.pc_update with
  | .Regular =>
      (none, { vm with run_context :=
        { vm.run_context with pc := Relocatable.addNat vm.run_context.pc instruction.size } })
  | .Jump =>
      match operands.res with
      | some (.RelocatableValue rel) =>
          (none, { vm with run_context := { vm.run_context with pc := rel } })
      | some (.Int _) => (some .ExpectedRelocatable, vm)
      | none => (some .UnconstrainedResJump, vm)
  | .JumpRel =>
      match operands.res with
      | some (.Int num_res) =>
          (none, { vm with run_context :=
            { vm.run_context with pc :=
              ⟨vm.run_context.pc.segment_index, vm.run_context.pc.offset + num_res⟩ } })
      | some (.RelocatableValue _) => (some .PureValue, vm)
      | none => (some .UnconstrainedResJumpRel, vm)
  | .Jnz =>
      match is_zero operands.dst with
      | .error e => (some e, vm)
      | .ok true =>
          (none, { vm with run_context :=
            { vm.run_context with pc := Relocatable.addNat vm.run_context.pc instruction.size } })
      | .ok false =>
          match Relocatable.add_maybe_mod vm.run_context.pc operands.op1 vm.prime with
          | .ok p => (none, { vm with run_context := { vm.run_context with pc := p } })
          | .error e => (some e, vm)

/-- `update_registers` (`vm_core.rs` lines 205–214): fp, then ap, then pc. -/
def VirtualMachine.update_registers (vm : VirtualMachine) (instruction : Instruction)
    (operands : Operands) : Option VirtualMachineError × VirtualMachine :=
  match VirtualMachine.update_fp vm instruction operands with
  | (some e, vm') => (some e, vm')
  | (none, vm1) =>
      match VirtualMachine.update_ap vm1 instruction operands with
      | (some e, vm') => (some e, vm')
      | (none, vm2) => VirtualMachine.update_pc vm2 instruction operands

/-- `deduce_op0` (`vm_core.rs` lines 228–278).  Note that in the `Mul` case the
source computes `(num_dst / num_op1).mod_floor(prime)` with plain `BigInt`
integer division. -/
def deduce_op0 (prime : ℕ) (pc : Relocatable) (instruction : Instruction)
    (dst op1 : Option MaybeRelocatable) :
    Except VirtualMachineError (Option MaybeRelocatable × Option MaybeRelocatable) :=
  match instruction.opcode with
  | .Call =>
      .ok (some (.RelocatableValue (Relocatable.addNat pc instruction.size)), none)
  | .AssertEq =>
      match instruction.res with
      | .Add =>
          match dst, op1 with
          | some dst_addr, some op1_addr =>
              match MaybeRelocatable.sub dst_addr op1_addr prime with
              | .error e => .error e
              | .ok v => .ok (some v, some dst_addr)
          | _, _ => .ok (none, none)
      | .Mul =>
          match dst, op1 with
          | some (.Int num_dst), some (.Int num_op1) =>
              if num_op1 ≠ 0 then
                .ok (some (.Int ((num_dst / num_op1) % prime)), some (.Int num_dst))
              else .ok (none, none)
          | _, _ => .ok (none, none)
      | _ => .ok (none, none)
  | _ => .ok (none, none)

/-- `deduce_op1` (`vm_core.rs` lines 283–324); same integer-division remark as
for `deduce_op0`. -/
def deduce_op1 (prime : ℕ) (instruction : Instruction)
    (dst op0 : Option MaybeRelocatable) :
    Except VirtualMachineError (Option MaybeRelocatable × Option MaybeRelocatable) :=
  match instruction.opcode with
  | .AssertEq =>
      match instruction.res with
      | .Op1 =>
          match dst with
          | some dst_addr => .ok (some dst_addr, some dst_addr)
          | none => .ok (none, none)
      | .Add =>
          match dst, op0 with
          | some dst_addr, some op0_addr =>
              match MaybeRelocatable.sub dst_addr op0_addr prime with
              | .error e => .error e
              | .ok v => .ok (some v, some dst_addr)
          | _, _ => .ok (none, none)
      | .Mul =>
          match dst, op0 with
          | some (.Int num_dst), some (.Int num_op0) =>
              if num_op0 ≠ 0 then
                .ok (some (.Int ((num_dst / num_op0) % prime)), some (.Int num_dst))
              else .ok (none, none)
          | _, _ => .ok (none, none)
      | _ => .ok (none, none)
  | _ => .ok (none, none)

/-- Helper for `VirtualMachine::deduce_memory_cell` (`vm_core.rs` lines
326–339): the first builtin whose base equals the address's segment answers. -/
def deduceMemoryCellAux (mem : Memory) (address : Relocatable) :
    List (String × Builtin) → Except VirtualMachineError (Option MaybeRelocatable)
  | [] => .ok none
  | (_, builtin) :: rest =>
      if builtin.base = address.segment_index then
        match builtin.deduce_memory_cell address mem with
        | .ok maybe_reloc => .ok maybe_reloc
        | .error e => .error (.RunnerError e)
      else deduceMemoryCellAux mem address rest

/-- `VirtualMachine::deduce_memory_cell` (`vm_core.rs` lines 326–339). -/
def VirtualMachine.deduce_memory_cell (vm : VirtualMachine) (address : Relocatable) :
    Except VirtualMachineError (Option MaybeRelocatable) :=
  deduceMemoryCellAux vm.memory address vm.builtin_runners

/-- `compute_res` (`vm_core.rs` lines 342–362). -/
def compute_res (prime : ℕ) (instruction : Instruction) (op0 op1 : MaybeRelocatable) :
    Except VirtualMachineError (Option MaybeRelocatable) :=
  match instruction.res with
  | .Op1 => .ok (some op1)
  | .Add =>
      match MaybeRelocatable.add_mod op0 op1 prime with
      | .error e => .error e
      | .ok v => .ok (some v)
  | .Mul =>
      match op0, op1 with
      | .Int num_op0, .Int num_op1 => .ok (some (.Int ((num_op0 * num_op1) % prime)))
      | _, _ => .error .PureValue
  | .Unconstrained => .ok none

/-- `deduce_dst` (`vm_core.rs` lines 364–379). -/
def deduce_dst (fp : Relocatable) (instruction : Instruction)
    (res : Option MaybeRelocatable) : Option MaybeRelocatable :=
  match instruction.opcode with
  | .AssertEq => res
  | .Call => some (.RelocatableValue fp)
  | _ => none

/-- `opcode_assertions` (`vm_core.rs` lines 381–424). -/
def VirtualMachine.opcode_assertions (vm : VirtualMachine) (instruction : Instruction)
    (operands : Operands) : Except VirtualMachineError Unit :=
  match instruction.opcode with
  | .AssertEq =>
      match operands.res with
      | none => .error .UnconstrainedResAssertEq
      | some res =>
          match res, operands.dst with
          | .Int res_num, .Int dst_num =>
              if res_num ≠ dst_num then .error (.DiffAssertValues dst_num res_num)
              else .ok ()
          | _, _ => .ok ()
  | .Call =>
      let return_pc : MaybeRelocatable :=
        .RelocatableValue (Relocatable.addNat vm.run_context.pc instruction.size)
      if operands.op0 ≠ return_pc then
        .error (.CantWriteReturnPc operands.op0 return_pc)
      else if (MaybeRelocatable.RelocatableValue (RunContext.get_fp vm.run_context)) ≠ operands.dst then
        .error (.CantWriteReturnFp operands.dst
          (.RelocatableValue (RunContext.get_fp vm.run_context)))
      else .ok ()
  | _ => .ok ()

/-- `compute_op0_deductions` (`vm_core.rs` lines 517–538), returning the
deduced `op0`, the possibly-updated `res`, and the memory after the insert.
On error the memory is returned unchanged (the insert either fully happens or
fails atomically). -/
def VirtualMachine.compute_op0_deductions (vm : VirtualMachine) (op0_addr : Relocatable)
    (res : Option MaybeRelocatable) (instruction : Instruction)
    (dst_op op1_op : Option MaybeRelocatable) :
    Except VirtualMachineError (MaybeRelocatable × Option MaybeRelocatable) × Memory :=
  match VirtualMachine.deduce_memory_cell vm op0_addr with
  | .error e => (.error e, vm.memory)
  | .ok deduced_memory_cell =>
      let step : Except VirtualMachineError (Option MaybeRelocatable × Option MaybeRelocatable) :=
        match deduced_memory_cell with
        | none => deduce_op0 vm.prime vm.run_context.pc instruction dst_op op1_op
        | some v => .ok (some v, res)
      match step with
      | .error e => (.error e, vm.memory)
      | .ok (op0_op, res') =>
          match op0_op with
          | none => (.error .FailedToComputeOperands, vm.memory)
          | some op0 =>
              match Memory.insert vm.memory op0_addr op0 with
              | .error e => (.error (.MemoryError e), vm.memory)
              | .ok m' => (.ok (op0, res'), m')

/-- `compute_op1_deductions` (`vm_core.rs` lines 540–564); the deduced `res`
is adopted only when the current `res` is `None`. -/
def VirtualMachine.compute_op1_deductions (vm : VirtualMachine) (op1_addr : Relocatable)
    (res : Option MaybeRelocatable) (instruction : Instruction)
    (dst_op : Option MaybeRelocatable) (op0 : MaybeRelocatable) :
    Except VirtualMachineError (MaybeRelocatable × Option MaybeRelocatable) × Memory :=
  match VirtualMachine.deduce_memory_cell vm op1_addr with
  | .error e => (.error e, vm.memory)
  | .ok deduced_memory_cell =>
      let step : Except VirtualMachineError (Option MaybeRelocatable × Option MaybeRelocatable) :=
        match deduced_memory_cell with
        | none =>
            match deduce_op1 vm.prime instruction dst_op (some op0) with
            | .error e => .error e
            | .ok (op1, deduced_res) =>
                .ok (op1, if res = none then deduced_res else res)
        | some v => .ok (some v, res)
      match step with
      | .error e => (.error e, vm.memory)
      | .ok (op1_op, res') =>
          match op1_op with
          | none => (.error .FailedToComputeOperands, vm.memory)
          | some op1 =>
              match Memory.insert vm.memory op1_addr op1 with
              | .error e => (.error (.MemoryError e), vm.memory)
              | .ok m' => (.ok (op1, res'), m')

/-- `compute_dst_deductions` (`vm_core.rs` lines 566–582). -/
def VirtualMachine.compute_dst_deductions (vm : VirtualMachine) (dst_addr : Relocatable)
    (instruction : Instruction) (res : Option MaybeRelocatable) :
    Except VirtualMachineError MaybeRelocatable × Memory :=
  let dst_op : Option MaybeRelocatable :=
    match instruction.opcode, res with
    | .AssertEq, some r => some r
    | .Call, _ => some (.RelocatableValue (RunContext.get_fp vm.run_context))
    | _, _ => deduce_dst (RunContext.get_fp vm.run_context) instruction res
  match dst_op with
  | none => (.error .NoDst, vm.memory)
  | some dst =>
      match Memory.insert vm.memory dst_addr dst with
      | .error e => (.error (.MemoryError e), vm.memory)
      | .ok m' => (.ok dst, m')

/-- `compute_operands` (`vm_core.rs` lines 586–646): read the three operands,
deduce the missing ones (builtin auto-deduction first, then opcode-directed
deduction), compute `res` if still unknown, deduce `dst` last.  The second
component is the memory after all deduction inserts, also on failure. -/
def VirtualMachine.compute_operands (vm : VirtualMachine) (instruction : Instruction) :
    Except VirtualMachineError (Operands × Option OperandsAddresses) × Memory :=
  match RunContext.compute_dst_addr vm.run_context instruction with
  | .error e => (.error e, vm.memory)
  | .ok dst_addr =>
  let dst_op := Memory.get vm.memory dst_addr
  match RunContext.compute_op0_addr vm.run_context instruction with
  | .error e => (.error e, vm.memory)
  | .ok op0_addr =>
  let op0_op := Memory.get vm.memory op0_addr
  match RunContext.compute_op1_addr vm.run_context instruction op0_op with
  | .error e => (.error e, vm.memory)
  | .ok op1_addr =>
  let op1_op := Memory.get vm.memory op1_addr
  let r0 : Except VirtualMachineError (MaybeRelocatable × Option MaybeRelocatable) × Memory :=
    match op0_op with
    | some v => (.ok (v, none), vm.memory)
    | none => VirtualMachine.compute_op0_deductions vm op0_addr none instruction dst_op op1_op
  match r0 with
  | (.error e, m) => (.error e, m)
  | (.ok (op0, res1), m1) =>
  let r1 : Except VirtualMachineError (MaybeRelocatable × Option MaybeRelocatable) × Memory :=
    match op1_op with
    | some v => (.ok (v, res1), m1)
    | none =>
        VirtualMachine.compute_op1_deductions { vm with memory := m1 } op1_addr res1
          instruction dst_op op0
  match r1 with
  | (.error e, m) => (.error e, m)
  | (.ok (op1, res2), m2) =>
  let res3e : Except VirtualMachineError (Option MaybeRelocatable) :=
    match res2 with
    | none => compute_res vm.prime instruction op0 op1
    | some r => .ok (some r)
  match res3e with
  | .error e => (.error e, m2)
  | .ok res3 =>
  let r2 : Except VirtualMachineError MaybeRelocatable × Memory :=
    match dst_op with
    | some v => (.ok v, m2)
    | none =>
        VirtualMachine.compute_dst_deductions { vm with memory := m2 } dst_addr
          instruction res3
  match r2 with
  | (.error e, m) => (.error e, m)
  | (.ok dst, m3) =>
      let accessed_addresses :=
        if vm.accessed_addresses.isSome then some (OperandsAddresses.mk dst_addr op0_addr op1_addr)
        else none
      (.ok (⟨dst, res3, op0, op1⟩, accessed_addresses), m3)

/-- `run_instruction` (`vm_core.rs` lines 426–453): compute operands, check
the opcode assertions, record trace and accessed addresses, update registers,
bump the step counter.  On failure the state mutated so far is kept. -/
def VirtualMachine.run_instruction (vm : VirtualMachine) (instruction : Instruction) :
    Option VirtualMachineError × VirtualMachine :=
  match VirtualMachine.compute_operands vm instruction with
  | (.error e, m) => (some e, { vm with memory := m })
  | (.ok (operands, operands_mem_addresses), m) =>
  let vm1 := { vm with memory := m }
  match VirtualMachine.opcode_assertions vm1 instruction operands with
  | .error e => (some e, vm1)
  | .ok _ =>
  let vm2 := { vm1 with trace := vm1.trace.map (fun t =>
    t ++ [⟨vm1.run_context.pc, RunContext.get_ap vm1.run_context,
           RunContext.get_fp vm1.run_context⟩]) }
  let acc : Except VirtualMachineError VirtualMachine :=
    match vm2.accessed_addresses with
    | some accessed =>
        match operands_mem_addresses with
        | none => .error .InvalidInstructionEncoding
        | some op_addrs =>
            .ok { vm2 with accessed_addresses := some (accessed ++
              [op_addrs.dst_addr, op_addrs.op0_addr, op_addrs.op1_addr,
               vm2.run_context.pc]) }
    | none => .ok vm2
  match acc with
  | .error e => (some e, vm2)
  | .ok vm3 =>
  match VirtualMachine.update_registers vm3 instruction operands with
  | (some e, vm4) => (some e, vm4)
  | (none, vm4) => (none, { vm4 with current_step := vm4.current_step + 1 })

/-- `get_instruction_encoding` (`vm_core.rs` lines 117–133): the value at `pc`
must be an integer; the optional immediate is read at `pc + 1`. -/
def VirtualMachine.get_instruction_encoding (vm : VirtualMachine) :
    Except VirtualMachineError (ℕ × Option MaybeRelocatable) :=
  match Memory.get vm.memory vm.run_context.pc with
  | some (.Int encoding) =>
      .ok (encoding, Memory.get vm.memory (Relocatable.addNat vm.run_context.pc 1))
  | _ => .error .InvalidInstructionEncoding

/-- `decode_current_instruction` (`vm_core.rs` lines 455–469).  The external
decoder (spec §6.1) is a parameter; the source first narrows the encoding to
an `i64`, failing with `InvalidInstructionEncoding` when it does not fit. -/
def VirtualMachine.decode_current_instruction (vm : VirtualMachine)
    (decoder : ℕ → Option ℕ → Except VirtualMachineError Instruction) :
    Except VirtualMachineError Instruction :=
  match VirtualMachine.get_instruction_encoding vm with
  | .error e => .error e
  | .ok (instruction_ref, imm) =>
      if instruction_ref < 2 ^ 63 then
        match imm with
        | some (.Int imm_val) => decoder instruction_ref (some imm_val)
        | _ => decoder instruction_ref none
      else .error .InvalidInstructionEncoding

/-- `step_instruction` (`vm_core.rs` lines 486–504): decode, run, and wrap an
error from `run_instruction` with the first error-message attribute covering
the current pc offset.  A decode failure propagates without wrapping. -/
def VirtualMachine.step_instruction (vm : VirtualMachine)
    (decoder : ℕ → Option ℕ → Except VirtualMachineError Instruction) :
    Option VirtualMachineError × VirtualMachine :=
  match VirtualMachine.decode_current_instruction vm decoder with
  | .error e => (some e, vm)
  | .ok instruction =>
      match VirtualMachine.run_instruction vm instruction with
      | (some err, vm') =>
          match vm'.error_message_attributes.find? (fun attr =>
              decide (attr.start_pc ≤ vm'.run_context.pc.offset ∧
                attr.end_pc ≥ vm'.run_context.pc.offset)) with
          | some attr => (some (.ErrorMessageAttribute attr.value err), vm')
          | none => (some err, vm')
      | (none, vm') => (none, { vm' with skip_instruction_execution := false })

/-- The inner loop of `verify_auto_deductions` (`vm_core.rs` lines 655–668)
over one builtin segment: each written cell must agree with a `Some` result of
the builtin's deduction at that address. -/
def checkSegment (name : String) (builtin : Builtin) (mem : Memory) (seg : ℤ) :
    List (Option MaybeRelocatable) → ℕ → Except VirtualMachineError Unit
  | [], _ => .ok ()
  | value :: rest, offset =>
      match builtin.deduce_memory_cell ⟨seg, offset⟩ mem with
      | .error e => .error (.RunnerError e)
      | .ok none => checkSegment name builtin mem seg rest (offset + 1)
      | .ok (some deduced_memory_cell) =>
          if some deduced_memory_cell ≠ value ∧ value ≠ none then
            .error (.InconsistentAutoDeduction name deduced_memory_cell value)
          else checkSegment name builtin mem seg rest (offset + 1)

/-- The outer loop of `verify_auto_deductions` (`vm_core.rs` lines 649–671)
over the builtins; a negative base FAILS with `AddressInTemporarySegment`. -/
def verifyAux (mem : Memory) :
    List (String × Builtin) → Except VirtualMachineError Unit
  | [] => .ok ()
  | (name, builtin) :: rest =>
      if builtin.base < 0 then
        .error (.MemoryError (.AddressInTemporarySegment builtin.base))
      else
        match checkSegment name builtin mem (builtin.base.toNat : ℤ)
            (mem.data.getD builtin.base.toNat []) 0 with
        | .error e => .error e
        | .ok _ => verifyAux mem rest

/-- `verify_auto_deductions` (`vm_core.rs` lines 649–671). -/
def VirtualMachine.verify_auto_deductions (vm : VirtualMachine) :
    Except VirtualMachineError Unit :=
  verifyAux vm.memory vm.builtin_runners

/-- `end_run` (`vm_core.rs` lines 673–679): verify the auto deductions, then
require the execution-scope stack (here its depth) to be exactly 1. -/
def VirtualMachine.end_run (vm : VirtualMachine) (exec_scopes_len : ℕ) :
    Except VirtualMachineError Unit :=
  match VirtualMachine.verify_auto_deductions vm with
  | .error e => .error e
  | .ok _ =>
      match exec_scopes_len with
      | 1 => .ok ()
      | _ => .error .NoScopeError

/-- A small default machine used to instantiate theorems on concrete inputs:
prime 97, program segment 0 and execution segment 1 both empty. -/
def vmBase : VirtualMachine :=
  { run_context := ⟨⟨0, 0⟩, 0, 0⟩
    prime := 97
    builtin_runners := []
    memory := ⟨[[], []]⟩
    accessed_addresses := none
    trace := none
    current_step := 0
    error_message_attributes := []
    skip_instruction_execution := false }

/-- A `Jnz` instruction fixture. -/
def instJnzW : Instruction :=
  { off0 := 0, off1 := 0, off2 := 0, imm := none, dst_register := .AP,
    op0_register := .AP, op1_addr := .AP, res := .Unconstrained,
    pc_update := .Jnz, ap_update := .Regular, fp_update := .Regular, opcode := .NOp }

/-- An `AssertEq`/`Mul` instruction fixture. -/
def instMulW : Instruction :=
  { off0 := 0, off1 := 0, off2 := 0, imm := none, dst_register := .AP,
    op0_register := .AP, op1_addr := .AP, res := .Mul,
    pc_update := .Regular, ap_update := .Regular, fp_update := .Regular, opcode := .AssertEq }

/-- An `AssertEq`/`Add` instruction fixture: `dst_addr = (1,0)`,
`op0_addr = (1,1)`, `op1_addr = (1,2)` when `ap = fp = 0`. -/
def instAddW : Instruction :=
  { off0 := 0, off1 := 1, off2 := 2, imm := none, dst_register := .AP,
    op0_register := .AP, op1_addr := .AP, res := .Add,
    pc_update := .Regular, ap_update := .Regular, fp_update := .Regular, opcode := .AssertEq }

/-- A `Call` instruction fixture. -/
def instCallW : Instruction :=
  { off0 := 0, off1 := 1, off2 := 2, imm := none, dst_register := .AP,
    op0_register := .AP, op1_addr := .AP, res := .Op1,
    pc_update := .Regular, ap_update := .Regular, fp_update := .Regular, opcode := .Call }

/-- An instruction fixture with `FpUpdate::Dst`. -/
def instFpDstW : Instruction :=
  { off0 := 0, off1 := 0, off2 := 0, imm := none, dst_register := .AP,
    op0_register := .AP, op1_addr := .AP, res := .Unconstrained,
    pc_update := .Regular, ap_update := .Regular, fp_update := .Dst, opcode := .NOp }

/-- A standard bitwise runner fixture (`total_n_bits = 251`). -/
def bitwiseW : BitwiseBuiltinRunner := BitwiseBuiltinRunner.new (BitwiseInstanceDef.new 256) true

/-- Memory fixture for the bitwise scenario S5: inputs 10 and 12 at offsets 5
and 6 of segment 0. -/
def memBitwiseW : Memory :=
  ⟨[[none, none, none, none, none, some (.Int 10), some (.Int 12)]]⟩

/-- Machine fixture for the op0-deduction scenario: `dst = Int 9` at `(1,0)`,
`(1,1)` unassigned, `op1 = Int 3` at `(1,2)`. -/
def vmC2 : VirtualMachine := { vmBase with memory := ⟨[[], [some (.Int 9), none, some (.Int 3)]]⟩ }

/-- Machine fixture for a failing `AssertEq`: all three operands present with
`dst = Int 9`, `op0 = Int 2`, `op1 = Int 3`. -/
def vmC10 : VirtualMachine :=
  { vmBase with memory := ⟨[[], [some (.Int 9), some (.Int 2), some (.Int 3)]]⟩ }

/-- A NOp instruction fixture whose operand deduction fails (`NoDst` path
feeds from nothing: dst, op0, op1 all unassigned). -/
def instNopW : Instruction :=
  { off0 := 0, off1 := 0, off2 := 0, imm := none, dst_register := .AP,
    op0_register := .AP, op1_addr := .AP, res := .Unconstrained,
    pc_update := .Regular, ap_update := .Regular, fp_update := .Regular, opcode := .NOp }

/-- A decoder fixture that always yields `instNopW` (the decoder is external,
spec §6.1). -/
def decodeNopW : ℕ → Option ℕ → Except VirtualMachineError Instruction :=
  fun _ _ => .ok instNopW

/-- Machine fixture for the error-wrapping scenario: a valid encoding at
`(0,0)` and an error-message attribute covering pc offsets 0–5. -/
def vmC9 : VirtualMachine :=
  { vmBase with
    memory := ⟨[[some (.Int 1)], []]⟩
    error_message_attributes := [⟨"error_message", 0, 5, "oops"⟩] }

/-- Machine fixture where even fetching the instruction fails (no cell at pc),
with the same attribute coverage. -/
def vmC9c : VirtualMachine :=
  { vmBase with
    error_message_attributes := [⟨"error_message", 0, 5, "oops"⟩] }

theorem getD_set_self {α : Type} (l : List α) (i : ℕ) (a d : α) (h : i < l.length) :
    (l.set i a).getD i d = a := by
  induction l generalizing i with
  | nil => simp at h
  | cons x xs ih =>
      cases i with
      | zero => simp
      | succ n =>
          simp only [List.set_cons_succ, List.getD_cons_succ]
          exact ih n (Nat.lt_of_succ_lt_succ h)

theorem padTo_length (l : List (Option MaybeRelocatable)) (n : ℕ) :
    (padTo l n).length = max l.length n := by
  simp [padTo]
  omega

/-- Inserting into a cell makes `get` at that address return the value. -/
theorem Memory.get_insert_self (m m' : Memory) (a : Relocatable) (v : MaybeRelocatable)
    (h : Memory.insert m a v = .ok m') : Memory.get m' a = some v := by
  unfold Memory.insert at h
  by_cases hseg : 0 ≤ a.segment_index
  · simp only [hseg, if_true] at h
    by_cases hlen : a.segment_index.toNat < m.data.length
    · simp only [hlen, if_true] at h
      cases hc : (m.data.getD a.segment_index.toNat []).getD a.offset none with
      | some w =>
          simp only [hc] at h
          by_cases hw : w = v
          · simp only [hw, if_true, Except.ok.injEq] at h
            subst h
            simp only [Memory.get, hseg, if_true, hc, hw]
          · simp [hw] at h
      | none =>
          simp only [hc, Except.ok.injEq] at h
          subst h
          have hoff : a.offset < (padTo (m.data.getD a.segment_index.toNat []) (a.offset + 1)).length := by
            rw [padTo_length]
            omega
          simp only [Memory.get, hseg, if_true]
          rw [getD_set_self _ _ _ _ hlen]
          rw [getD_set_self _ _ _ _ hoff]
    · simp [hlen] at h
  · simp [hseg] at h

/-- C1: for an `AssertEq` instruction with result mode `Mul`, the source does
NOT deduce the missing operand as `dst` times the modular inverse of the known
operand: it computes plain integer division `(dst / known) % P`.  At
`dst = Int 1`, known operand `Int 2`, prime 7, both `deduce_op0` and
`deduce_op1` deduce `Int 0`, and `0 * 2 ≢ 1 (mod 7)`, contradicting the
claimed `deduced * d ≡ dst (mod P)`. -/
theorem deduce_mul_uses_integer_division :
    deduce_op0 7 ⟨0, 0⟩ instMulW (some (.Int 1)) (some (.Int 2)) =
      .ok (some (.Int 0), some (.Int 1)) ∧
    deduce_op1 7 instMulW (some (.Int 1)) (some (.Int 2)) =
      .ok (some (.Int 0), some (.Int 1)) ∧
    (0 * 2) % 7 ≠ 1 % 7 :=
  ⟨rfl, rfl, by decide⟩

/-- C3: for an instruction with `PcUpdate::Jnz`: a `dst` of `Int 0` advances
pc by the instruction size; a nonzero `Int` dst moves pc to `pc + op1`
following the §3.1 addition rules (offset addition for an `Int` op1,
`PureValue` failure for an `Addr` op1); an `Addr` dst fails with `PureValue`
leaving pc unchanged. -/
theorem update_pc_jnz_spec (vm : VirtualMachine) (instruction : Instruction)
    (operands : Operands) (h : instruction.pc_update = .Jnz) :
    (operands.dst = .Int 0 →
      VirtualMachine.update_pc vm instruction operands =
        (none, { vm with run_context := { vm.run_context with
          pc := Relocatable.addNat vm.run_context.pc instruction.size } })) ∧
    (∀ n, operands.dst = .Int n → n ≠ 0 →
      (∀ m, operands.op1 = .Int m →
        VirtualMachine.update_pc vm instruction operands =
          (none, { vm with run_context := { vm.run_context with
            pc := ⟨vm.run_context.pc.segment_index, vm.run_context.pc.offset + m⟩ } })) ∧
      (∀ r, operands.op1 = .RelocatableValue r →
        VirtualMachine.update_pc vm instruction operands = (some .PureValue, vm))) ∧
    (∀ r, operands.dst = .RelocatableValue r →
      VirtualMachine.update_pc vm instruction operands = (some .PureValue, vm)) := by
  refine ⟨?_, ?_, ?_⟩
  · intro hd
    simp [VirtualMachine.update_pc, h, is_zero, hd]
  · intro n hd hn
    constructor
    · intro m hm
      simp [VirtualMachine.update_pc, h, is_zero, hd, hn, hm, Relocatable.add_maybe_mod]
    · intro r hr
      simp [VirtualMachine.update_pc, h, is_zero, hd, hn, hr, Relocatable.add_maybe_mod]
  · intro r hr
    simp [VirtualMachine.update_pc, h, is_zero, hr]

/-- Witness for C3 at concrete inputs: `dst = Int 0` advances pc by 1,
`dst = Int 3` with `op1 = Int 4` jumps to offset 4, an `Addr` dst fails. -/
theorem update_pc_jnz_spec_witness :
    VirtualMachine.update_pc vmBase instJnzW ⟨.Int 0, none, .Int 0, .Int 4⟩ =
      (none, { vmBase with run_context := { vmBase.run_context with
        pc := Relocatable.addNat vmBase.run_context.pc instJnzW.size } }) ∧
    VirtualMachine.update_pc vmBase instJnzW ⟨.Int 3, none, .Int 0, .Int 4⟩ =
      (none, { vmBase with run_context := { vmBase.run_context with
        pc := ⟨vmBase.run_context.pc.segment_index, vmBase.run_context.pc.offset + 4⟩ } }) ∧
    VirtualMachine.update_pc vmBase instJnzW ⟨.RelocatableValue ⟨1, 2⟩, none, .Int 0, .Int 4⟩ =
      (some .PureValue, vmBase) :=
  ⟨(update_pc_jnz_spec vmBase instJnzW ⟨.Int 0, none, .Int 0, .Int 4⟩ rfl).1 rfl,
   ((update_pc_jnz_spec vmBase instJnzW ⟨.Int 3, none, .Int 0, .Int 4⟩ rfl).2.1
      3 rfl (by decide)).1 4 rfl,
   (update_pc_jnz_spec vmBase instJnzW ⟨.RelocatableValue ⟨1, 2⟩, none, .Int 0, .Int 4⟩
      rfl).2.2 ⟨1, 2⟩ rfl⟩

/-- C6: for an `AssertEq` instruction, `opcode_assertions` fails with
`UnconstrainedResAssertEq` when `res` is `None`; with `DiffAssertValues` when
`res` and `dst` are unequal integers; and succeeds whenever `res` is present
and at least one of `res`, `dst` is an address. -/
theorem opcode_assertions_assert_eq_spec (vm : VirtualMachine)
    (instruction : Instruction) (operands : Operands)
    (h : instruction.opcode = .AssertEq) :
    (operands.res = none →
      VirtualMachine.opcode_assertions vm instruction operands =
        .error .UnconstrainedResAssertEq) ∧
    (∀ r d, operands.res = some (.Int r) → operands.dst = .Int d → r ≠ d →
      VirtualMachine.opcode_assertions vm instruction operands =
        .error (.DiffAssertValues d r)) ∧
    (∀ v, operands.res = some v →
      ((∃ rel, v = .RelocatableValue rel) ∨ (∃ rel, operands.dst = .RelocatableValue rel)) →
      VirtualMachine.opcode_assertions vm instruction operands = .ok ()) := by
  refine ⟨?_, ?_, ?_⟩
  · intro hres
    simp [VirtualMachine.opcode_assertions, h, hres]
  · intro r d hres hdst hne
    simp [VirtualMachine.opcode_assertions, h, hres, hdst, hne]
  · intro v hres haddr
    rcases haddr with ⟨rel, hv⟩ | ⟨rel, hdst⟩
    · subst hv
      simp [VirtualMachine.opcode_assertions, h, hres]
    · cases v with
      | Int n => simp [VirtualMachine.opcode_assertions, h, hres, hdst]
      | RelocatableValue r => simp [VirtualMachine.opcode_assertions, h, hres, hdst]

/-- Witness for C6 at concrete operands: missing `res`, differing integers,
and an address `dst` with an integer `res`. -/
theorem opcode_assertions_assert_eq_spec_witness :
    VirtualMachine.opcode_assertions vmBase instAddW ⟨.Int 8, none, .Int 9, .Int 10⟩ =
      .error .UnconstrainedResAssertEq ∧
    VirtualMachine.opcode_assertions vmBase instAddW
        ⟨.Int 9, some (.Int 8), .Int 9, .Int 10⟩ =
      .error (.DiffAssertValues 9 8) ∧
    VirtualMachine.opcode_assertions vmBase instAddW
        ⟨.RelocatableValue ⟨1, 5⟩, some (.Int 8), .Int 9, .Int 10⟩ = .ok () :=
  ⟨(opcode_assertions_assert_eq_spec vmBase instAddW
      ⟨.Int 8, none, .Int 9, .Int 10⟩ rfl).1 rfl,
   (opcode_assertions_assert_eq_spec vmBase instAddW
      ⟨.Int 9, some (.Int 8), .Int 9, .Int 10⟩ rfl).2.1 8 9 rfl rfl (by decide),
   (opcode_assertions_assert_eq_spec vmBase instAddW
      ⟨.RelocatableValue ⟨1, 5⟩, some (.Int 8), .Int 9, .Int 10⟩ rfl).2.2
      (.Int 8) rfl (Or.inr ⟨⟨1, 5⟩, rfl⟩)⟩

/-- C7: for a `Call` instruction, `opcode_assertions` fails with
`CantWriteReturnPc` when `op0` differs from `pc + size()`, fails with
`CantWriteReturnFp` when `op0` is correct but `dst` differs from `fp` viewed
as an address of the execution segment, and succeeds when both hold. -/
theorem opcode_assertions_call_spec (vm : VirtualMachine)
    (instruction : Instruction) (operands : Operands)
    (h : instruction.opcode = .Call) :
    (operands.op0 ≠
        .RelocatableValue (Relocatable.addNat vm.run_context.pc instruction.size) →
      VirtualMachine.opcode_assertions vm instruction operands =
        .error (.CantWriteReturnPc operands.op0
          (.RelocatableValue (Relocatable.addNat vm.run_context.pc instruction.size)))) ∧
    (operands.op0 =
        .RelocatableValue (Relocatable.addNat vm.run_context.pc instruction.size) →
      operands.dst ≠ .RelocatableValue (RunContext.get_fp vm.run_context) →
      VirtualMachine.opcode_assertions vm instruction operands =
        .error (.CantWriteReturnFp operands.dst
          (.RelocatableValue (RunContext.get_fp vm.run_context)))) ∧
    (operands.op0 =
        .RelocatableValue (Relocatable.addNat vm.run_context.pc instruction.size) →
      operands.dst = .RelocatableValue (RunContext.get_fp vm.run_context) →
      VirtualMachine.opcode_assertions vm instruction operands = .ok ()) := by
  refine ⟨?_, ?_, ?_⟩
  · intro hne
    simp [VirtualMachine.opcode_assertions, h, hne]
  · intro hop0 hdst
    simp [VirtualMachine.opcode_assertions, h, hop0, Ne.symm hdst]
  · intro hop0 hdst
    simp [VirtualMachine.opcode_assertions, h, hop0, hdst]

/-- Witness for C7: with `pc = (0,0)`, size 1, `fp = 0`, the three cases are
exercised at concrete operands. -/
theorem opcode_assertions_call_spec_witness :
    VirtualMachine.opcode_assertions vmBase instCallW
        ⟨.RelocatableValue ⟨1, 0⟩, none, .Int 9, .Int 0⟩ =
      .error (.CantWriteReturnPc (.Int 9)
        (.RelocatableValue (Relocatable.addNat vmBase.run_context.pc instCallW.size))) ∧
    VirtualMachine.opcode_assertions vmBase instCallW
        ⟨.Int 8, none, .RelocatableValue ⟨0, 1⟩, .Int 0⟩ =
      .error (.CantWriteReturnFp (.Int 8)
        (.RelocatableValue (RunContext.get_fp vmBase.run_context))) ∧
    VirtualMachine.opcode_assertions vmBase instCallW
        ⟨.RelocatableValue ⟨1, 0⟩, none, .RelocatableValue ⟨0, 1⟩, .Int 0⟩ = .ok () :=
  ⟨(opcode_assertions_call_spec vmBase instCallW
      ⟨.RelocatableValue ⟨1, 0⟩, none, .Int 9, .Int 0⟩ rfl).1 (by decide),
   (opcode_assertions_call_spec vmBase instCallW
      ⟨.Int 8, none, .RelocatableValue ⟨0, 1⟩, .Int 0⟩ rfl).2.1 (by decide) (by decide),
   (opcode_assertions_call_spec vmBase instCallW
      ⟨.RelocatableValue ⟨1, 0⟩, none, .RelocatableValue ⟨0, 1⟩, .Int 0⟩ rfl).2.2
      (by decide) (by decide)⟩

/-- C8: for an instruction with `FpUpdate::Dst`: an integer `dst` below `2^63`
becomes the new fp; an integer `dst` at or above `2^63` fails (the conversion
to an unsigned register value is modelled from §4.2.2 — canonical residues
cannot be negative); an address `dst` sets fp to its offset. -/
theorem update_fp_dst_spec (vm : VirtualMachine) (instruction : Instruction)
    (operands : Operands) (h : instruction.fp_update = .Dst) :
    (∀ n, operands.dst = .Int n → n < 2 ^ 63 →
      VirtualMachine.update_fp vm instruction operands =
        (none, { vm with run_context := { vm.run_context with fp := n } })) ∧
    (∀ n, operands.dst = .Int n → 2 ^ 63 ≤ n →
      VirtualMachine.update_fp vm instruction operands =
        (some .BigintToUsizeFail, vm)) ∧
    (∀ r, operands.dst = .RelocatableValue r →
      VirtualMachine.update_fp vm instruction operands =
        (none, { vm with run_context := { vm.run_context with fp := r.offset } })) := by
  refine ⟨?_, ?_, ?_⟩
  · intro n hd hn
    have hn' : n < 9223372036854775808 := hn
    simp [VirtualMachine.update_fp, h, hd, bigint_to_usize, hn']
  · intro n hd hn
    have hn' : ¬ n < 9223372036854775808 := Nat.not_lt.mpr hn
    simp [VirtualMachine.update_fp, h, hd, bigint_to_usize, hn']
  · intro r hd
    simp [VirtualMachine.update_fp, h, hd]

/-- Witness for C8: fp becomes 11 for `dst = Int 11`, the update fails for
`dst = Int 2^63`, and fp becomes 6 for `dst = Addr (1,6)`. -/
theorem update_fp_dst_spec_witness :
    VirtualMachine.update_fp vmBase instFpDstW ⟨.Int 11, none, .Int 0, .Int 0⟩ =
      (none, { vmBase with run_context := { vmBase.run_context with fp := 11 } }) ∧
    VirtualMachine.update_fp vmBase instFpDstW ⟨.Int (2 ^ 63), none, .Int 0, .Int 0⟩ =
      (some .BigintToUsizeFail, vmBase) ∧
    VirtualMachine.update_fp vmBase instFpDstW
        ⟨.RelocatableValue ⟨1, 6⟩, none, .Int 0, .Int 0⟩ =
      (none, { vmBase with run_context := { vmBase.run_context with fp := 6 } }) :=
  ⟨(update_fp_dst_spec vmBase instFpDstW ⟨.Int 11, none, .Int 0, .Int 0⟩ rfl).1
      11 rfl (by decide),
   (update_fp_dst_spec vmBase instFpDstW ⟨.Int (2 ^ 63), none, .Int 0, .Int 0⟩ rfl).2.1
      (2 ^ 63) rfl (le_refl _),
   (update_fp_dst_spec vmBase instFpDstW
      ⟨.RelocatableValue ⟨1, 6⟩, none, .Int 0, .Int 0⟩ rfl).2.2 ⟨1, 6⟩ rfl⟩

/-- C4: the bitwise `deduce_memory_cell` with `index = offset mod 5` returns
`Ok(None)` on input cells (index 0 or 1) and whenever either input at
`(segment, offset − index)` or its successor is absent or not an integer;
fails with `IntegerBiggerThanPowerOfTwo` when an input reaches
`2^total_n_bits`; and otherwise returns AND/XOR/OR for indices 2/3/4.  With
inputs 10 and 12 at offsets 5 and 6, the query at offset 7 yields `Int 8`. -/
theorem bitwise_deduce_memory_cell_spec (b : BitwiseBuiltinRunner) (mem : Memory)
    (address : Relocatable) (hb : b.cells_per_instance = 5) :
    (address.offset % 5 = 0 ∨ address.offset % 5 = 1 →
      BitwiseBuiltinRunner.deduce_memory_cell b address mem = .ok none) ∧
    (address.offset % 5 ≠ 0 → address.offset % 5 ≠ 1 →
      (∀ x y,
        ¬(Memory.get mem ⟨address.segment_index, address.offset - address.offset % 5⟩ =
            some (.Int x) ∧
          Memory.get mem ⟨address.segment_index, address.offset - address.offset % 5 + 1⟩ =
            some (.Int y))) →
      BitwiseBuiltinRunner.deduce_memory_cell b address mem = .ok none) ∧
    (∀ x y, address.offset % 5 ≠ 0 → address.offset % 5 ≠ 1 →
      Memory.get mem ⟨address.segment_index, address.offset - address.offset % 5⟩ =
        some (.Int x) →
      Memory.get mem ⟨address.segment_index, address.offset - address.offset % 5 + 1⟩ =
        some (.Int y) →
      2 ^ b.bitwise_builtin.total_n_bits ≤ x ∨ 2 ^ b.bitwise_builtin.total_n_bits ≤ y →
      ∃ a k n, BitwiseBuiltinRunner.deduce_memory_cell b address mem =
        .error (.IntegerBiggerThanPowerOfTwo a k n)) ∧
    (∀ x y,
      Memory.get mem ⟨address.segment_index, address.offset - address.offset % 5⟩ =
        some (.Int x) →
      Memory.get mem ⟨address.segment_index, address.offset - address.offset % 5 + 1⟩ =
        some (.Int y) →
      x < 2 ^ b.bitwise_builtin.total_n_bits → y < 2 ^ b.bitwise_builtin.total_n_bits →
      (address.offset % 5 = 2 →
        BitwiseBuiltinRunner.deduce_memory_cell b address mem = .ok (some (.Int (x &&& y)))) ∧
      (address.offset % 5 = 3 →
        BitwiseBuiltinRunner.deduce_memory_cell b address mem = .ok (some (.Int (x ^^^ y)))) ∧
      (address.offset % 5 = 4 →
        BitwiseBuiltinRunner.deduce_memory_cell b address mem = .ok (some (.Int (x ||| y))))) ∧
    BitwiseBuiltinRunner.deduce_memory_cell bitwiseW ⟨0, 7⟩ memBitwiseW =
      .ok (some (.Int 8)) := by
  refine ⟨?_, ?_, ?_, ?_, by decide⟩
  · intro h01
    simp [BitwiseBuiltinRunner.deduce_memory_cell, hb, h01]
  · intro hn0 hn1 hnb
    cases hgx : Memory.get mem ⟨address.segment_index, address.offset - address.offset % 5⟩ with
    | none => simp [BitwiseBuiltinRunner.deduce_memory_cell, hb, hn0, hn1, hgx]
    | some v =>
        cases v with
        | RelocatableValue r =>
            simp [BitwiseBuiltinRunner.deduce_memory_cell, hb, hn0, hn1, hgx]
        | Int x =>
            cases hgy : Memory.get mem
                ⟨address.segment_index, address.offset - address.offset % 5 + 1⟩ with
            | none =>
                simp [BitwiseBuiltinRunner.deduce_memory_cell, hb, hn0, hn1, hgx,
                  Relocatable.addNat, hgy]
            | some w =>
                cases w with
                | RelocatableValue r =>
                    simp [BitwiseBuiltinRunner.deduce_memory_cell, hb, hn0, hn1, hgx,
                      Relocatable.addNat, hgy]
                | Int y => exact absurd ⟨hgx, hgy⟩ (hnb x y)
  · intro x y hn0 hn1 hgx hgy hbound
    by_cases hx : 2 ^ b.bitwise_builtin.total_n_bits ≤ x
    · refine ⟨.RelocatableValue ⟨address.segment_index, address.offset - address.offset % 5⟩,
        b.bitwise_builtin.total_n_bits, x, ?_⟩
      simp [BitwiseBuiltinRunner.deduce_memory_cell, hb, hn0, hn1, hgx,
        Relocatable.addNat, hgy, hx]
    · have hy : 2 ^ b.bitwise_builtin.total_n_bits ≤ y := by tauto
      refine ⟨.RelocatableValue ⟨address.segment_index, address.offset - address.offset % 5 + 1⟩,
        b.bitwise_builtin.total_n_bits, y, ?_⟩
      simp [BitwiseBuiltinRunner.deduce_memory_cell, hb, hn0, hn1, hgx,
        Relocatable.addNat, hgy, hx, hy]
  · intro x y hgx hgy hxlt hylt
    have hx := Nat.not_le.mpr hxlt
    have hy := Nat.not_le.mpr hylt
    refine ⟨?_, ?_, ?_⟩
    · intro hidx
      rw [hidx] at hgx hgy
      simp [BitwiseBuiltinRunner.deduce_memory_cell, hb, hidx, hgx,
        Relocatable.addNat, hgy, hx, hy]
    · intro hidx
      rw [hidx] at hgx hgy
      simp [BitwiseBuiltinRunner.deduce_memory_cell, hb, hidx, hgx,
        Relocatable.addNat, hgy, hx, hy]
    · intro hidx
      rw [hidx] at hgx hgy
      simp [BitwiseBuiltinRunner.deduce_memory_cell, hb, hidx, hgx,
        Relocatable.addNat, hgy, hx, hy]

/-- Witness for C4: the input cell at offset 5 is never deduced, and the AND
cell at offset 7 is deduced from the inputs 10 and 12 through the theorem. -/
theorem bitwise_deduce_memory_cell_spec_witness :
    BitwiseBuiltinRunner.deduce_memory_cell bitwiseW ⟨0, 5⟩ memBitwiseW = .ok none ∧
    BitwiseBuiltinRunner.deduce_memory_cell bitwiseW ⟨0, 7⟩ memBitwiseW =
      .ok (some (.Int (10 &&& 12))) :=
  ⟨(bitwise_deduce_memory_cell_spec bitwiseW memBitwiseW ⟨0, 5⟩ rfl).1
      (Or.inl (by decide)),
   ((bitwise_deduce_memory_cell_spec bitwiseW memBitwiseW ⟨0, 7⟩ rfl).2.2.2.1
      10 12 (by decide) (by decide) (by decide) (by decide)).1 (by decide)⟩

/-- C9 (amended): the error-message-attribute wrapping applies exactly to the
errors raised by `run_instruction` after a successful decode: such an error is
wrapped with the first covering attribute's text, while a fetch/decode failure
propagates unwrapped. -/
theorem step_instruction_error_wrapping (vm : VirtualMachine)
    (decoder : ℕ → Option ℕ → Except VirtualMachineError Instruction) :
    (∀ instruction err vm' attr,
      VirtualMachine.decode_current_instruction vm decoder = .ok instruction →
      VirtualMachine.run_instruction vm instruction = (some err, vm') →
      vm'.error_message_attributes.find? (fun a =>
        decide (a.start_pc ≤ vm'.run_context.pc.offset ∧
          a.end_pc ≥ vm'.run_context.pc.offset)) = some attr →
      VirtualMachine.step_instruction vm decoder =
        (some (.ErrorMessageAttribute attr.value err), vm')) ∧
    (∀ e, VirtualMachine.decode_current_instruction vm decoder = .error e →
      VirtualMachine.step_instruction vm decoder = (some e, vm)) := by
  constructor
  · intro instruction err vm' attr hdec hrun hfind
    simp only [VirtualMachine.step_instruction, hdec, hrun]
    rw [hfind]
  · intro e hdec
    simp only [VirtualMachine.step_instruction, hdec]

/-- Witness for C9 (amended): a deduction failure (`FailedToComputeOperands`)
at pc `(0,0)` is wrapped with the covering attribute text `"oops"`, while a
missing instruction cell yields a bare `InvalidInstructionEncoding`. -/
theorem step_instruction_error_wrapping_witness :
    VirtualMachine.step_instruction vmC9 decodeNopW =
      (some (.ErrorMessageAttribute "oops" .FailedToComputeOperands), vmC9) ∧
    VirtualMachine.step_instruction vmC9c decodeNopW =
      (some .InvalidInstructionEncoding, vmC9c) :=
  ⟨(step_instruction_error_wrapping vmC9 decodeNopW).1 instNopW
      .FailedToComputeOperands vmC9 ⟨"error_message", 0, 5, "oops"⟩ rfl rfl rfl,
   (step_instruction_error_wrapping vmC9c decodeNopW).2 .InvalidInstructionEncoding rfl⟩

/-- Counterexample to C9 as stated: with an attribute covering pc `(0,0)` but
the instruction cell absent, `step_instruction` fails in the fetch/decode step
and the returned error is the bare `InvalidInstructionEncoding`, not an
`ErrorMessageAttribute` wrapper. -/
theorem step_instruction_decode_error_not_wrapped :
    (VirtualMachine.step_instruction vmC9c decodeNopW).1 =
      some .InvalidInstructionEncoding ∧
    (∃ attr ∈ vmC9c.error_message_attributes,
      attr.start_pc ≤ vmC9c.run_context.pc.offset ∧
      attr.end_pc ≥ vmC9c.run_context.pc.offset) ∧
    (∀ s e, (VirtualMachine.step_instruction vmC9c decodeNopW).1 ≠
      some (.ErrorMessageAttribute s e)) := by
  refine ⟨rfl, ⟨⟨"error_message", 0, 5, "oops"⟩, by decide, by decide⟩, ?_⟩
  intro s e h
  rw [show (VirtualMachine.step_instruction vmC9c decodeNopW).1 =
      some VirtualMachineError.InvalidInstructionEncoding from rfl] at h
  simp at h

/-- C10: when `compute_operands` succeeds (having possibly inserted deduced
cells, final memory `m'`) and the step then fails in `opcode_assertions`, the
step is not rolled back atomically: the registers and the step counter are
unchanged, but the memory keeps every deduction write. -/
theorem run_instruction_keeps_deduction_writes
    (vm : VirtualMachine) (instruction : Instruction) (operands : Operands)
    (oaddrs : Option OperandsAddresses) (m' : Memory) (err : VirtualMachineError)
    (hco : VirtualMachine.compute_operands vm instruction = (.ok (operands, oaddrs), m'))
    (hassert : VirtualMachine.opcode_assertions { vm with memory := m' } instruction
      operands = .error err) :
    (VirtualMachine.run_instruction vm instruction).1 = some err ∧
    (VirtualMachine.run_instruction vm instruction).2.run_context = vm.run_context ∧
    (VirtualMachine.run_instruction vm instruction).2.current_step = vm.current_step ∧
    (VirtualMachine.run_instruction vm instruction).2.memory = m' := by
  simp [VirtualMachine.run_instruction, hco, hassert]

/-- Witness for C10: with all operands present and `dst = Int 9 ≠ 2 + 3`, the
step fails with `DiffAssertValues 9 5` leaving registers, step counter and
memory as after operand resolution. -/
theorem run_instruction_keeps_deduction_writes_witness :
    (VirtualMachine.run_instruction vmC10 instAddW).1 = some (.DiffAssertValues 9 5) ∧
    (VirtualMachine.run_instruction vmC10 instAddW).2.run_context = vmC10.run_context ∧
    (VirtualMachine.run_instruction vmC10 instAddW).2.current_step = vmC10.current_step ∧
    (VirtualMachine.run_instruction vmC10 instAddW).2.memory = vmC10.memory :=
  run_instruction_keeps_deduction_writes vmC10 instAddW
    ⟨.Int 9, some (.Int 5), .Int 2, .Int 3⟩ none vmC10.memory
    (.DiffAssertValues 9 5) rfl rfl

/-- If no builtin owns the address's segment, the VM-level auto-deduction
yields nothing. -/
theorem deduceMemoryCellAux_no_owner (mem : Memory) (address : Relocatable)
    (bs : List (String × Builtin))
    (h : ∀ p ∈ bs, p.2.base ≠ address.segment_index) :
    deduceMemoryCellAux mem address bs = .ok none := by
  induction bs with
  | nil => rfl
  | cons p rest ih =>
      obtain ⟨name, builtin⟩ := p
      have hb : builtin.base ≠ address.segment_index := by
        exact h ⟨name, builtin⟩ (List.mem_cons_self _ _)
      simp only [deduceMemoryCellAux, hb, if_false]
      exact ih (fun q hq => h q (List.mem_cons_of_mem _ hq))

/-- Evaluation of `deduce_op1` on an `AssertEq`/`Add` instruction with both
`dst` and `op0` known. -/
theorem deduce_op1_assert_eq_add (prime : ℕ) (instruction : Instruction)
    (hop : instruction.opcode = .AssertEq) (hres : instruction.res = .Add)
    (dv v0 : MaybeRelocatable) :
    deduce_op1 prime instruction (some dv) (some v0) =
      match MaybeRelocatable.sub dv v0 prime with
      | .error e => .error e
      | .ok v => .ok (some v, some dv) := by
  obtain ⟨o0, o1, o2, i, dr, o0r, o1a, rs, pu, au, fu, oc⟩ := instruction
  simp only at hop hres
  subst hop
  subst hres
  rfl

/-- C2: for an `AssertEq` instruction with result mode `Add` where exactly one
of `{dst, op0, op1}` is absent from memory (and, for op0/op1, the absent
address is in no builtin's segment), a successful `compute_operands` resolves
the absent operand to the value forced by `dst = op0 + op1` under the §3.1
rules — `dst − op1` for op0, `dst − op0` for op1, `op0 + op1` for dst — and
inserts it into memory at the operand's address. -/
theorem compute_operands_assert_eq_add_deduction
    (vm : VirtualMachine) (instruction : Instruction) (operands : Operands)
    (oaddrs : Option OperandsAddresses) (m' : Memory)
    (dst_addr op0_addr op1_addr : Relocatable)
    (hop : instruction.opcode = .AssertEq) (hres : instruction.res = .Add)
    (hda : RunContext.compute_dst_addr vm.run_context instruction = .ok dst_addr)
    (h0a : RunContext.compute_op0_addr vm.run_context instruction = .ok op0_addr)
    (h1a : RunContext.compute_op1_addr vm.run_context instruction
      (Memory.get vm.memory op0_addr) = .ok op1_addr)
    (hco : VirtualMachine.compute_operands vm instruction = (.ok (operands, oaddrs), m')) :
    (∀ dv v1, Memory.get vm.memory op0_addr = none →
      Memory.get vm.memory dst_addr = some dv →
      Memory.get vm.memory op1_addr = some v1 →
      (∀ p ∈ vm.builtin_runners, p.2.base ≠ op0_addr.segment_index) →
      MaybeRelocatable.sub dv v1 vm.prime = .ok operands.op0 ∧
      Memory.get m' op0_addr = some operands.op0) ∧
    (∀ dv v0, Memory.get vm.memory op1_addr = none →
      Memory.get vm.memory dst_addr = some dv →
      Memory.get vm.memory op0_addr = some v0 →
      (∀ p ∈ vm.builtin_runners, p.2.base ≠ op1_addr.segment_index) →
      MaybeRelocatable.sub dv v0 vm.prime = .ok operands.op1 ∧
      Memory.get m' op1_addr = some operands.op1) ∧
    (∀ v0 v1, Memory.get vm.memory dst_addr = none →
      Memory.get vm.memory op0_addr = some v0 →
      Memory.get vm.memory op1_addr = some v1 →
      MaybeRelocatable.add_mod v0 v1 vm.prime = .ok operands.dst ∧
      Memory.get m' dst_addr = some operands.dst) := by
  refine ⟨?_, ?_, ?_⟩
  · intro dv v1 h0n hdv hv1 hnb
    rw [h0n] at h1a
    have hcell : deduceMemoryCellAux vm.memory op0_addr vm.builtin_runners = .ok none :=
      deduceMemoryCellAux_no_owner vm.memory op0_addr vm.builtin_runners hnb
    simp only [VirtualMachine.compute_operands, hda, h0a, h0n, h1a, hdv, hv1,
      VirtualMachine.compute_op0_deductions, VirtualMachine.deduce_memory_cell,
      hcell, deduce_op0, hop, hres] at hco
    cases hsub : MaybeRelocatable.sub dv v1 vm.prime with
    | error e =>
        simp only [hsub] at hco
        simp at hco
    | ok w =>
        simp only [hsub] at hco
        cases hins : Memory.insert vm.memory op0_addr w with
        | error e =>
            simp only [hins] at hco
            simp at hco
        | ok m1 =>
            simp only [hins, Prod.mk.injEq, Except.ok.injEq] at hco
            obtain ⟨⟨hops, _⟩, hm⟩ := hco
            subst hm
            refine ⟨?_, ?_⟩
            · rw [← hops]
            · rw [← hops]
              exact Memory.get_insert_self vm.memory m1 op0_addr w hins
  · intro dv v0 h1n hdv hv0 hnb
    rw [hv0] at h1a
    have hcell : deduceMemoryCellAux vm.memory op1_addr vm.builtin_runners = .ok none :=
      deduceMemoryCellAux_no_owner vm.memory op1_addr vm.builtin_runners hnb
    have hdo1 := deduce_op1_assert_eq_add vm.prime instruction hop hres dv v0
    simp only [VirtualMachine.compute_operands, hda, h0a, hv0, h1a, h1n, hdv,
      VirtualMachine.compute_op0_deductions, VirtualMachine.compute_op1_deductions,
      VirtualMachine.deduce_memory_cell, hcell, hdo1] at hco
    cases hsub : MaybeRelocatable.sub dv v0 vm.prime with
    | error e =>
        simp only [hsub] at hco
        simp at hco
    | ok w =>
        simp only [hsub, reduceIte] at hco
        cases hins : Memory.insert vm.memory op1_addr w with
        | error e =>
            simp only [hins] at hco
            simp at hco
        | ok m1 =>
            simp only [hins, Prod.mk.injEq, Except.ok.injEq] at hco
            obtain ⟨⟨hops, _⟩, hm⟩ := hco
            subst hm
            refine ⟨?_, ?_⟩
            · rw [← hops]
            · rw [← hops]
              exact Memory.get_insert_self vm.memory m1 op1_addr w hins
  · intro v0 v1 hdn hv0 hv1
    rw [hv0] at h1a
    simp only [VirtualMachine.compute_operands, hda, h0a, hv0, h1a, hv1, hdn,
      compute_res, hres, VirtualMachine.compute_dst_deductions, hop] at hco
    cases hadd : MaybeRelocatable.add_mod v0 v1 vm.prime with
    | error e =>
        simp only [hadd] at hco
        simp at hco
    | ok av =>
        simp only [hadd] at hco
        cases hins : Memory.insert vm.memory dst_addr av with
        | error e =>
            simp only [hins] at hco
            simp at hco
        | ok m1 =>
            simp only [hins, Prod.mk.injEq, Except.ok.injEq] at hco
            obtain ⟨⟨hops, _⟩, hm⟩ := hco
            subst hm
            refine ⟨?_, ?_⟩
            · rw [← hops]
            · rw [← hops]
              exact Memory.get_insert_self vm.memory m1 dst_addr av hins

/-- Witness for C2: with `dst = Int 9` at `(1,0)`, `(1,1)` absent and
`op1 = Int 3` at `(1,2)` under prime 97, the deduced op0 is `Int 6 = 9 − 3`
and it is written at `(1,1)`. -/
theorem compute_operands_assert_eq_add_deduction_witness :
    MaybeRelocatable.sub (.Int 9) (.Int 3) vmC2.prime =
      .ok ((⟨.Int 9, some (.Int 9), .Int 6, .Int 3⟩ : Operands).op0) ∧
    Memory.get (⟨[[], [some (.Int 9), some (.Int 6), some (.Int 3)]]⟩ : Memory) ⟨1, 1⟩ =
      some ((⟨.Int 9, some (.Int 9), .Int 6, .Int 3⟩ : Operands).op0) :=
  (compute_operands_assert_eq_add_deduction vmC2 instAddW
      ⟨.Int 9, some (.Int 9), .Int 6, .Int 3⟩ none
      ⟨[[], [some (.Int 9), some (.Int 6), some (.Int 3)]]⟩
      ⟨1, 0⟩ ⟨1, 1⟩ ⟨1, 2⟩ rfl rfl rfl rfl rfl rfl).1
    (.Int 9) (.Int 3) rfl rfl rfl
    (fun p hp => absurd hp (List.not_mem_nil p))

/-- With no runner errors on the segment, `checkSegment` either succeeds or
reports an inconsistency for its builtin. -/
theorem checkSegment_shape (name : String) (builtin : Builtin) (mem : Memory)
    (seg : ℤ) (l : List (Option MaybeRelocatable)) (off0 : ℕ)
    (hnoerr : ∀ off e, builtin.deduce_memory_cell ⟨seg, off⟩ mem ≠ .error e) :
    checkSegment name builtin mem seg l off0 = .ok () ∨
    ∃ d c, checkSegment name builtin mem seg l off0 =
      .error (.InconsistentAutoDeduction name d c) := by
  induction l generalizing off0 with
  | nil => exact Or.inl rfl
  | cons value rest ih =>
      cases hd : builtin.deduce_memory_cell ⟨seg, off0⟩ mem with
      | error e => exact absurd hd (hnoerr off0 e)
      | ok r =>
          cases r with
          | none =>
              have hstep : checkSegment name builtin mem seg (value :: rest) off0 =
                  checkSegment name builtin mem seg rest (off0 + 1) := by
                simp only [checkSegment, hd]
              rw [hstep]
              exact ih (off0 + 1)
          | some dc =>
              by_cases hbad : some dc ≠ value ∧ value ≠ none
              · refine Or.inr ⟨dc, value, ?_⟩
                simp only [checkSegment, hd, if_pos hbad]
              · have hstep : checkSegment name builtin mem seg (value :: rest) off0 =
                    checkSegment name builtin mem seg rest (off0 + 1) := by
                  simp only [checkSegment, hd, if_neg hbad]
                rw [hstep]
                exact ih (off0 + 1)

/-- With no runner errors on the segment, `checkSegment` reports an
inconsistency exactly when some written cell of the segment disagrees with a
`some` deduction at its offset. -/
theorem checkSegment_inconsistent_iff (name : String) (builtin : Builtin)
    (mem : Memory) (seg : ℤ) (l : List (Option MaybeRelocatable)) (off0 : ℕ)
    (hnoerr : ∀ off e, builtin.deduce_memory_cell ⟨seg, off⟩ mem ≠ .error e) :
    (∃ d c, checkSegment name builtin mem seg l off0 =
      .error (.InconsistentAutoDeduction name d c)) ↔
    (∃ i v d, l[i]? = some (some v) ∧
      builtin.deduce_memory_cell ⟨seg, off0 + i⟩ mem = .ok (some d) ∧ d ≠ v) := by
  induction l generalizing off0 with
  | nil => simp [checkSegment]
  | cons value rest ih =>
      cases hd : builtin.deduce_memory_cell ⟨seg, off0⟩ mem with
      | error e => exact absurd hd (hnoerr off0 e)
      | ok r =>
          cases r with
          | none =>
              have hstep : checkSegment name builtin mem seg (value :: rest) off0 =
                  checkSegment name builtin mem seg rest (off0 + 1) := by
                simp only [checkSegment, hd]
              rw [hstep, ih (off0 + 1)]
              constructor
              · rintro ⟨i, v, d, hc, hdd, hne⟩
                refine ⟨i + 1, v, d, by rw [List.getElem?_cons_succ]; exact hc, ?_, hne⟩
                have he : off0 + (i + 1) = off0 + 1 + i := by omega
                rw [he]
                exact hdd
              · rintro ⟨i, v, d, hc, hdd, hne⟩
                cases i with
                | zero =>
                    rw [Nat.add_zero, hd] at hdd
                    exact absurd hdd (by simp)
                | succ j =>
                    refine ⟨j, v, d, by rw [List.getElem?_cons_succ] at hc; exact hc, ?_, hne⟩
                    have he : off0 + 1 + j = off0 + (j + 1) := by omega
                    rw [he]
                    exact hdd
          | some dc =>
              by_cases hbad : some dc ≠ value ∧ value ≠ none
              · have hcs : checkSegment name builtin mem seg (value :: rest) off0 =
                    .error (.InconsistentAutoDeduction name dc value) := by
                  simp only [checkSegment, hd, if_pos hbad]
                rw [hcs]
                constructor
                · intro _
                  obtain ⟨hne, hv⟩ := hbad
                  cases value with
                  | none => exact absurd rfl hv
                  | some v =>
                      refine ⟨0, v, dc, by simp, by rw [Nat.add_zero]; exact hd, ?_⟩
                      intro hdv
                      exact hne (by rw [hdv])
                · intro _
                  exact ⟨dc, value, rfl⟩
              · have hcs : checkSegment name builtin mem seg (value :: rest) off0 =
                    checkSegment name builtin mem seg rest (off0 + 1) := by
                  simp only [checkSegment, hd, if_neg hbad]
                rw [hcs, ih (off0 + 1)]
                constructor
                · rintro ⟨i, v, d, hc, hdd, hne⟩
                  refine ⟨i + 1, v, d, by rw [List.getElem?_cons_succ]; exact hc, ?_, hne⟩
                  have he : off0 + (i + 1) = off0 + 1 + i := by omega
                  rw [he]
                  exact hdd
                · rintro ⟨i, v, d, hc, hdd, hne⟩
                  cases i with
                  | zero =>
                      rw [List.getElem?_cons_zero] at hc
                      have hv : value = some v := by
                        injection hc
                      subst hv
                      rw [Nat.add_zero, hd] at hdd
                      have hdc : dc = d := by
                        simp only [Except.ok.injEq, Option.some.injEq] at hdd
                        exact hdd
                      have hdcv : dc = v := by
                        by_contra hne2
                        exact hbad ⟨by simpa using hne2, by simp⟩
                      exact absurd (hdc ▸ hdcv) hne
                  | succ j =>
                      refine ⟨j, v, d, by rw [List.getElem?_cons_succ] at hc; exact hc, ?_, hne⟩
                      have he : off0 + 1 + j = off0 + (j + 1) := by omega
                      rw [he]
                      exact hdd

/-- Lifts the per-segment characterisation through the builtin loop of
`verify_auto_deductions`. -/
theorem verifyAux_inconsistent_iff (mem : Memory) (bs : List (String × Builtin))
    (hbase : ∀ p ∈ bs, 0 ≤ p.2.base)
    (hnoerr : ∀ p ∈ bs, ∀ off e,
      p.2.deduce_memory_cell ⟨p.2.base, off⟩ mem ≠ .error e) :
    (∃ n d c, verifyAux mem bs = .error (.InconsistentAutoDeduction n d c)) ↔
    (∃ p ∈ bs, ∃ off v d,
      (mem.data.getD p.2.base.toNat [])[off]? = some (some v) ∧
      p.2.deduce_memory_cell ⟨p.2.base, off⟩ mem = .ok (some d) ∧ d ≠ v) := by
  induction bs with
  | nil => simp [verifyAux]
  | cons p rest ih =>
      obtain ⟨name, b⟩ := p
      have h0 : 0 ≤ b.base := hbase ⟨name, b⟩ (List.mem_cons_self _ _)
      have hneg : ¬ b.base < 0 := not_lt.mpr h0
      have hsegeq : ((b.base.toNat : ℤ)) = b.base := Int.toNat_of_nonneg h0
      have hnoerr_b : ∀ off e,
          b.deduce_memory_cell ⟨(b.base.toNat : ℤ), off⟩ mem ≠ .error e := by
        intro off e
        rw [hsegeq]
        exact hnoerr ⟨name, b⟩ (List.mem_cons_self _ _) off e
      have hiff := checkSegment_inconsistent_iff name b mem ((b.base.toNat : ℤ))
        (mem.data.getD b.base.toNat []) 0 hnoerr_b
      simp only [Nat.zero_add, hsegeq] at hiff
      have hrest_base : ∀ q ∈ rest, 0 ≤ q.2.base :=
        fun q hq => hbase q (List.mem_cons_of_mem _ hq)
      have hrest_noerr : ∀ q ∈ rest, ∀ off e,
          q.2.deduce_memory_cell ⟨q.2.base, off⟩ mem ≠ .error e :=
        fun q hq => hnoerr q (List.mem_cons_of_mem _ hq)
      cases checkSegment_shape name b mem ((b.base.toNat : ℤ))
          (mem.data.getD b.base.toNat []) 0 hnoerr_b with
      | inl hok =>
          have hv : verifyAux mem ((name, b) :: rest) = verifyAux mem rest := by
            simp only [verifyAux, hneg, if_false, hok]
          rw [hsegeq] at hok
          rw [hv, ih hrest_base hrest_noerr]
          have hnobad : ¬ ∃ off v d,
              (mem.data.getD b.base.toNat [])[off]? = some (some v) ∧
              b.deduce_memory_cell ⟨b.base, off⟩ mem = .ok (some d) ∧ d ≠ v := by
            intro hbadHead
            obtain ⟨d, c, herr⟩ := hiff.mpr hbadHead
            rw [hok] at herr
            exact Except.noConfusion herr
          constructor
          · rintro ⟨q, hq, hbadq⟩
            exact ⟨q, List.mem_cons_of_mem _ hq, hbadq⟩
          · rintro ⟨q, hq, hbadq⟩
            rcases List.mem_cons.mp hq with heq | hq'
            · subst heq
              exact absurd hbadq hnobad
            · exact ⟨q, hq', hbadq⟩
      | inr herr2 =>
          obtain ⟨d, c, herr⟩ := herr2
          have hv : verifyAux mem ((name, b) :: rest) =
              .error (.InconsistentAutoDeduction name d c) := by
            simp only [verifyAux, hneg, if_false, herr]
          rw [hsegeq] at herr
          rw [hv]
          constructor
          · intro _
            exact ⟨⟨name, b⟩, List.mem_cons_self _ _, hiff.mp ⟨d, c, herr⟩⟩
          · intro _
            exact ⟨name, d, c, rfl⟩

/-- C5: with well-formed builtins (nonnegative bases inside the allocated
memory, no runner errors), `verify_auto_deductions` fails with
`InconsistentAutoDeduction` exactly when some builtin's segment holds a
written cell that differs from a `some` deduction of that builtin there —
written cells whose deduction is `none` and holes never fail — and `end_run`
succeeds exactly when the verifier succeeds and the scope stack has depth 1. -/
theorem verify_auto_deductions_spec (vm : VirtualMachine)
    (hbase : ∀ p ∈ vm.builtin_runners, 0 ≤ p.2.base)
    (_hlen : ∀ p ∈ vm.builtin_runners, p.2.base.toNat < vm.memory.data.length)
    (hnoerr : ∀ p ∈ vm.builtin_runners, ∀ off e,
      p.2.deduce_memory_cell ⟨p.2.base, off⟩ vm.memory ≠ .error e) :
    ((∃ n d c, VirtualMachine.verify_auto_deductions vm =
        .error (.InconsistentAutoDeduction n d c)) ↔
      (∃ p ∈ vm.builtin_runners, ∃ off v d,
        (vm.memory.data.getD p.2.base.toNat [])[off]? = some (some v) ∧
        p.2.deduce_memory_cell ⟨p.2.base, off⟩ vm.memory = .ok (some d) ∧ d ≠ v)) ∧
    (∀ k, VirtualMachine.end_run vm k = .ok () ↔
      (VirtualMachine.verify_auto_deductions vm = .ok () ∧ k = 1)) := by
  constructor
  · exact verifyAux_inconsistent_iff vm.memory vm.builtin_runners hbase hnoerr
  · intro k
    cases hv : VirtualMachine.verify_auto_deductions vm with
    | error e => simp [VirtualMachine.end_run, hv]
    | ok u =>
        cases u
        rcases k with _ | (_ | k) <;> simp [VirtualMachine.end_run, hv]

/-- Witness for C5 on a machine with no builtins: the verifier trivially
succeeds, no inconsistency exists, and `end_run` succeeds exactly at scope
depth 1. -/
theorem verify_auto_deductions_spec_witness :
    ((∃ n d c, VirtualMachine.verify_auto_deductions vmBase =
        .error (.InconsistentAutoDeduction n d c)) ↔
      (∃ p ∈ vmBase.builtin_runners, ∃ off v d,
        (vmBase.memory.data.getD p.2.base.toNat [])[off]? = some (some v) ∧
        p.2.deduce_memory_cell ⟨p.2.base, off⟩ vmBase.memory = .ok (some d) ∧ d ≠ v)) ∧
    (∀ k, VirtualMachine.end_run vmBase k = .ok () ↔
      (VirtualMachine.verify_auto_deductions vmBase = .ok () ∧ k = 1)) :=
  verify_auto_deductions_spec vmBase
    (fun p hp => absurd hp (List.not_mem_nil p))
    (fun p hp => absurd hp (List.not_mem_nil p))
    (fun p hp => absurd hp (List.not_mem_nil p))

end CairoVM
